import Mathlib

/-!
Verification of the merchant wallet ledger of `apps/wallets`
(`services.py` / `models.py`): a shallow embedding of
`WalletService` and `PaymentMethodService` over an explicit ledger state,
with the spec's invariants proved about it.

Modelling conventions:
* `Decimal` amounts (2 decimal places, exact arithmetic) are embedded as
  `Int` (think: an integer number of cents); `+`/comparison on them is exact.
* UUID primary keys are embedded as `Nat`s drawn from a fresh-id counter
  `next_id` shared by all tables (uniqueness of freshly generated primary
  keys is what `uuid4`/the database's primary-key constraint provide).
* Django's `objects.get(pk=...)` on a primary key returns the unique
  matching row or raises `DoesNotExist`; it is embedded as `List.find?`
  (primary-key uniqueness makes the first match the unique match).
* `@transaction.atomic` rollback is embedded by the `Except` result: a
  failing operation returns only an error and the caller keeps the
  pre-call state (see `applyOp`).
* Python exceptions are embedded as `LedgerError`; `isValueError` records
  which Python exception class each one is raised as in the source
  (`ValueError` vs the model-specific `DoesNotExist` classes), and
  `kindOf` maps each to the spec's error-kind vocabulary.
* Free-text metadata (`description`, `reference_id`, `related_order_id`,
  `processed_by`, payment-method detail fields, timestamps) is carried
  through the source unchanged and inspected by no branch of the ledger
  logic; it is omitted from the embedded records.  The creation-order
  position of a transaction in the log plays the role of its `timestamp`
  (rows are appended, `auto_now_add`), so "order by -timestamp" is
  `List.reverse`.
-/

/-- `MerchantWallet.STATUS_CHOICES` in `models.py`. -/
inductive WalletStatus where
  | active : WalletStatus
  | suspended : WalletStatus
  | frozen : WalletStatus
  | closed : WalletStatus
  deriving DecidableEq

/-- `MerchantWalletTransaction.TRANSACTION_TYPE_CHOICES` in `models.py`. -/
inductive TxType where
  | deposit : TxType
  | withdrawal : TxType
  | refund : TxType
  | commission : TxType
  | penalty : TxType
  | transfer_in : TxType
  | transfer_out : TxType
  | adjustment : TxType
  deriving DecidableEq

/-- `MerchantWalletTransaction.TRANSACTION_STATUS_CHOICES` in `models.py`. -/
inductive TxStatus where
  | pending : TxStatus
  | processing : TxStatus
  | completed : TxStatus
  | failed : TxStatus
  | cancelled : TxStatus
  | reversed : TxStatus
  deriving DecidableEq

/-- `MerchantPaymentMethod.STATUS_CHOICES` in `models.py`. -/
inductive PMStatus where
  | active : PMStatus
  | inactive : PMStatus
  | expired : PMStatus
  | blocked : PMStatus
  deriving DecidableEq

/-- Row of `merchant_wallets` (`MerchantWallet` in `models.py`). -/
structure MerchantWallet where
  wallet_id : Nat
  merchant_id : Nat
  balance : Int
  status : WalletStatus
  deriving DecidableEq

/-- Row of `merchant_wallet_transactions` (`MerchantWalletTransaction`). -/
structure WalletTransaction where
  transaction_id : Nat
  wallet_id : Nat
  amount : Int
  transaction_type : TxType
  transaction_status : TxStatus
  deriving DecidableEq

/-- Row of `merchant_payment_methods` (`MerchantPaymentMethod`). -/
structure PaymentMethod where
  payment_method_id : Nat
  wallet_id : Nat
  is_default : Bool
  status : PMStatus
  deriving DecidableEq

/-- The persisted state the ledger operations act on: the three wallet
tables plus the fresh primary-key counter.  Transactions are stored in
creation order (append-only log). -/
structure LedgerState where
  wallets : List MerchantWallet
  transactions : List WalletTransaction
  payment_methods : List PaymentMethod
  next_id : Nat
  deriving DecidableEq

/-- The failures raised by the ledger code, one constructor per distinct
`raise` site / message shape in `services.py` (payloads mirror the data
interpolated into the Python message). -/
inductive LedgerError where
  | doesNotExist : LedgerError
  | notActive : WalletStatus → LedgerError
  | insufficientFunds : Int → Int → Int → LedgerError
  | nonPositiveTransfer : LedgerError
  | sameWallet : LedgerError
  | alreadySuspended : LedgerError
  | alreadyActive : LedgerError
  | cannotReactivate : WalletStatus → LedgerError
  | walletNotFound : Nat → LedgerError
  | merchantWalletNotFound : Nat → LedgerError
  deriving DecidableEq

/-- The spec's error-kind vocabulary (§7 of the spec). -/
inductive ErrorKind where
  | notFound : ErrorKind
  | invalidState : ErrorKind
  | insufficientFunds : ErrorKind
  | invalidArgument : ErrorKind
  deriving DecidableEq

/-- Which spec error kind each concrete failure belongs to. -/
def kindOf : LedgerError → ErrorKind
  | LedgerError.doesNotExist => ErrorKind.notFound
  | LedgerError.notActive _ => ErrorKind.invalidState
  | LedgerError.insufficientFunds _ _ _ => ErrorKind.insufficientFunds
  | LedgerError.nonPositiveTransfer => ErrorKind.invalidArgument
  | LedgerError.sameWallet => ErrorKind.invalidArgument
  | LedgerError.alreadySuspended => ErrorKind.invalidState
  | LedgerError.alreadyActive => ErrorKind.invalidState
  | LedgerError.cannotReactivate _ => ErrorKind.invalidState
  | LedgerError.walletNotFound _ => ErrorKind.notFound
  | LedgerError.merchantWalletNotFound _ => ErrorKind.notFound

/-- Which Python exception class each failure is raised as in the source:
`true` for `ValueError`, `false` for the Django model `DoesNotExist`
classes (`MerchantWallet.DoesNotExist` / `MerchantPaymentMethod.DoesNotExist`,
raised by an uncaught `objects.get`). -/
def isValueError : LedgerError → Bool
  | LedgerError.doesNotExist => false
  | _ => true

/-- `MerchantWallet.objects.get(wallet_id=...)`: lookup by primary key. -/
def findWallet (s : LedgerState) (wid : Nat) : Option MerchantWallet :=
  s.wallets.find? (fun w => decide (w.wallet_id = wid))

/-- `MerchantWallet.objects.get(merchant_id=...)`: lookup by the one-to-one
owning merchant. -/
def findWalletByMerchant (s : LedgerState) (mid : Nat) : Option MerchantWallet :=
  s.wallets.find? (fun w => decide (w.merchant_id = mid))

/-- `wallet.save()`: write back the row with primary key `wid`. -/
def updateWallet (l : List MerchantWallet) (wid : Nat) (nw : MerchantWallet) :
    List MerchantWallet :=
  l.map (fun w => if w.wallet_id = wid then nw else w)

/-- `WalletService.create_merchant_wallet`: `get_or_create` keyed on the
merchant, with defaults balance `0.00`, status `active`. -/
def create_merchant_wallet (s : LedgerState) (merchant_id : Nat) :
    LedgerState × MerchantWallet :=
  match findWalletByMerchant s merchant_id with
  | some w => (s, w)
  | none =>
    let w : MerchantWallet :=
      { wallet_id := s.next_id, merchant_id := merchant_id,
        balance := 0, status := WalletStatus.active }
    ({ s with wallets := s.wallets ++ [w], next_id := s.next_id + 1 }, w)

/-- `WalletService.process_transaction`: lock-and-load the wallet (raises
`DoesNotExist` if absent), require status `active`, require
`balance + amount ≥ 0`, then — atomically — insert a `completed`
transaction row and write back the new balance.  (The subsequent
`MerchantWallet.save` balance re-check can never fire here because
`new_balance ≥ 0` was just established.) -/
def process_transaction (s : LedgerState) (wallet_id : Nat) (amount : Int)
    (transaction_type : TxType) :
    Except LedgerError (LedgerState × WalletTransaction) :=
  match findWallet s wallet_id with
  | none => Except.error LedgerError.doesNotExist
  | some wallet =>
    if wallet.status = WalletStatus.active then
      let new_balance := wallet.balance + amount
      if new_balance < 0 then
        Except.error (LedgerError.insufficientFunds wallet.balance amount new_balance)
      else
        let txn : WalletTransaction :=
          { transaction_id := s.next_id, wallet_id := wallet_id,
            amount := amount, transaction_type := transaction_type,
            transaction_status := TxStatus.completed }
        Except.ok
          ({ s with
              wallets := updateWallet s.wallets wallet_id
                { wallet with balance := new_balance },
              transactions := s.transactions ++ [txn],
              next_id := s.next_id + 1 }, txn)
    else Except.error (LedgerError.notActive wallet.status)

/-- `WalletService.get_wallet_balance`: read, with `DoesNotExist` caught
and re-raised as `ValueError "Wallet not found: {wallet_id}"`. -/
def get_wallet_balance (s : LedgerState) (wallet_id : Nat) : Except LedgerError Int :=
  match findWallet s wallet_id with
  | some w => Except.ok w.balance
  | none => Except.error (LedgerError.walletNotFound wallet_id)

/-- `WalletService.get_merchant_wallet`: lookup by merchant, with
`DoesNotExist` re-raised as `ValueError "Wallet not found for merchant"`. -/
def get_merchant_wallet (s : LedgerState) (merchant_id : Nat) :
    Except LedgerError MerchantWallet :=
  match findWalletByMerchant s merchant_id with
  | some w => Except.ok w
  | none => Except.error (LedgerError.merchantWalletNotFound merchant_id)

/-- `WalletService.transfer_funds`: argument guards, then the debit
(`-amount`, `transfer_out`) on the source and the credit (`+amount`,
`transfer_in`) on the destination, all inside one atomic unit — an error
from either inner call aborts the whole transfer. -/
def transfer_funds (s : LedgerState) (from_wallet_id to_wallet_id : Nat)
    (amount : Int) :
    Except LedgerError (LedgerState × WalletTransaction × WalletTransaction) :=
  if amount ≤ 0 then Except.error LedgerError.nonPositiveTransfer
  else if from_wallet_id = to_wallet_id then Except.error LedgerError.sameWallet
  else
    match process_transaction s from_wallet_id (-amount) TxType.transfer_out with
    | Except.error e => Except.error e
    | Except.ok (s1, withdrawal_txn) =>
      match process_transaction s1 to_wallet_id amount TxType.transfer_in with
      | Except.error e => Except.error e
      | Except.ok (s2, deposit_txn) => Except.ok (s2, withdrawal_txn, deposit_txn)

/-- `WalletService.get_transaction_history`: filter by wallet and the
optional type/status predicates, newest first, truncated to `limit`. -/
def get_transaction_history (s : LedgerState) (wallet_id : Nat)
    (transaction_type : Option TxType) (status : Option TxStatus)
    (limit : Nat) : List WalletTransaction :=
  let q1 := s.transactions.filter (fun t => decide (t.wallet_id = wallet_id))
  let q2 := match transaction_type with
    | some tt => q1.filter (fun t : WalletTransaction => decide (t.transaction_type = tt))
    | none => q1
  let q3 := match status with
    | some st => q2.filter (fun t : WalletTransaction => decide (t.transaction_status = st))
    | none => q2
  (q3.reverse).take limit

/-- `WalletService.suspend_wallet`: reject if already `suspended`, else
log a zero-amount `completed` `adjustment` row and set status
`suspended`, atomically. -/
def suspend_wallet (s : LedgerState) (wallet_id : Nat) :
    Except LedgerError (LedgerState × MerchantWallet) :=
  match findWallet s wallet_id with
  | none => Except.error LedgerError.doesNotExist
  | some wallet =>
    if wallet.status = WalletStatus.suspended then
      Except.error LedgerError.alreadySuspended
    else
      let txn : WalletTransaction :=
        { transaction_id := s.next_id, wallet_id := wallet_id,
          amount := 0, transaction_type := TxType.adjustment,
          transaction_status := TxStatus.completed }
      let w' := { wallet with status := WalletStatus.suspended }
      Except.ok
        ({ s with
            wallets := updateWallet s.wallets wallet_id w',
            transactions := s.transactions ++ [txn],
            next_id := s.next_id + 1 }, w')

/-- `WalletService.reactivate_wallet`: reject if already `active` or if
the status is neither `suspended` nor `frozen`, else log a zero-amount
`completed` `adjustment` row and set status `active`, atomically. -/
def reactivate_wallet (s : LedgerState) (wallet_id : Nat) :
    Except LedgerError (LedgerState × MerchantWallet) :=
  match findWallet s wallet_id with
  | none => Except.error LedgerError.doesNotExist
  | some wallet =>
    if wallet.status = WalletStatus.active then
      Except.error LedgerError.alreadyActive
    else if wallet.status = WalletStatus.suspended ∨ wallet.status = WalletStatus.frozen then
      let txn : WalletTransaction :=
        { transaction_id := s.next_id, wallet_id := wallet_id,
          amount := 0, transaction_type := TxType.adjustment,
          transaction_status := TxStatus.completed }
      let w' := { wallet with status := WalletStatus.active }
      Except.ok
        ({ s with
            wallets := updateWallet s.wallets wallet_id w',
            transactions := s.transactions ++ [txn],
            next_id := s.next_id + 1 }, w')
    else Except.error (LedgerError.cannotReactivate wallet.status)

/-- `MerchantPaymentMethod.objects.get(payment_method_id=...)`. -/
def getPaymentMethod (s : LedgerState) (pmid : Nat) : Option PaymentMethod :=
  s.payment_methods.find? (fun p => decide (p.payment_method_id = pmid))

/-- `PaymentMethodService.add_payment_method`: the wallet must exist
(else `DoesNotExist`); if the new method is to be the default, clear
`is_default` on the wallet's existing methods first; then insert the new
method with status `active`. -/
def add_payment_method (s : LedgerState) (wallet_id : Nat) (is_default : Bool) :
    Except LedgerError (LedgerState × PaymentMethod) :=
  match findWallet s wallet_id with
  | none => Except.error LedgerError.doesNotExist
  | some _ =>
    let cleared :=
      if is_default then
        s.payment_methods.map (fun p =>
          if p.wallet_id = wallet_id ∧ p.is_default = true then
            { p with is_default := false }
          else p)
      else s.payment_methods
    let pm : PaymentMethod :=
      { payment_method_id := s.next_id, wallet_id := wallet_id,
        is_default := is_default, status := PMStatus.active }
    Except.ok
      ({ s with payment_methods := cleared ++ [pm], next_id := s.next_id + 1 }, pm)

/-- `PaymentMethodService.get_default_payment_method`: the single method
of the wallet with `is_default = true` and status `active`, if any (the
single-default invariant makes the first match the unique match). -/
def get_default_payment_method (s : LedgerState) (wallet_id : Nat) :
    Option PaymentMethod :=
  s.payment_methods.find? (fun p =>
    decide (p.wallet_id = wallet_id ∧ p.is_default = true ∧ p.status = PMStatus.active))

/-- `PaymentMethodService.set_default_payment_method`: fetch the target
(else `DoesNotExist`), clear `is_default` on every other default of the
same wallet, then save the target with `is_default = true` — one atomic
unit.  (The target's `save` re-runs the same clearing, a no-op here.) -/
def set_default_payment_method (s : LedgerState) (payment_method_id : Nat) :
    Except LedgerError (LedgerState × PaymentMethod) :=
  match getPaymentMethod s payment_method_id with
  | none => Except.error LedgerError.doesNotExist
  | some m =>
    let cleared := s.payment_methods.map (fun p =>
      if p.wallet_id = m.wallet_id ∧ p.is_default = true ∧
          p.payment_method_id ≠ payment_method_id then
        { p with is_default := false }
      else p)
    let target := { m with is_default := true }
    Except.ok
      ({ s with payment_methods :=
          cleared.map (fun p =>
            if p.payment_method_id = payment_method_id then target else p) },
        target)

/-- `PaymentMethodService.deactivate_payment_method`: fetch the target
(else `DoesNotExist`), set status `inactive` and `is_default := false`. -/
def deactivate_payment_method (s : LedgerState) (payment_method_id : Nat) :
    Except LedgerError (LedgerState × PaymentMethod) :=
  match getPaymentMethod s payment_method_id with
  | none => Except.error LedgerError.doesNotExist
  | some m =>
    let m' := { m with status := PMStatus.inactive, is_default := false }
    Except.ok
      ({ s with payment_methods :=
          s.payment_methods.map (fun p =>
            if p.payment_method_id = payment_method_id then m' else p) }, m')

/-- One ledger operation, as invoked by a caller (the mutating entry
points of `WalletService` / `PaymentMethodService`). -/
inductive LedgerOp where
  | createWallet : Nat → LedgerOp
  | processTx : Nat → Int → TxType → LedgerOp
  | transferFunds : Nat → Nat → Int → LedgerOp
  | suspendWallet : Nat → LedgerOp
  | reactivateWallet : Nat → LedgerOp
  | addPaymentMethod : Nat → Bool → LedgerOp
  | setDefaultPaymentMethod : Nat → LedgerOp
  | deactivatePaymentMethod : Nat → LedgerOp
  deriving DecidableEq

/-- Apply one operation to the state: a successful call commits its new
state; a failing call rolls back (`@transaction.atomic`), leaving the
state exactly as it was. -/
def applyOp (s : LedgerState) (op : LedgerOp) : LedgerState :=
  match op with
  | LedgerOp.createWallet mid => (create_merchant_wallet s mid).1
  | LedgerOp.processTx wid amt tt =>
    match process_transaction s wid amt tt with
    | Except.ok (s', _) => s'
    | Except.error _ => s
  | LedgerOp.transferFunds a b amt =>
    match transfer_funds s a b amt with
    | Except.ok (s', _, _) => s'
    | Except.error _ => s
  | LedgerOp.suspendWallet wid =>
    match suspend_wallet s wid with
    | Except.ok (s', _) => s'
    | Except.error _ => s
  | LedgerOp.reactivateWallet wid =>
    match reactivate_wallet s wid with
    | Except.ok (s', _) => s'
    | Except.error _ => s
  | LedgerOp.addPaymentMethod wid d =>
    match add_payment_method s wid d with
    | Except.ok (s', _) => s'
    | Except.error _ => s
  | LedgerOp.setDefaultPaymentMethod pmid =>
    match set_default_payment_method s pmid with
    | Except.ok (s', _) => s'
    | Except.error _ => s
  | LedgerOp.deactivatePaymentMethod pmid =>
    match deactivate_payment_method s pmid with
    | Except.ok (s', _) => s'
    | Except.error _ => s

/-- Apply a sequence of operations in order. -/
def applyOps (s : LedgerState) (ops : List LedgerOp) : LedgerState :=
  ops.foldl applyOp s

/-- The empty database. -/
def initState : LedgerState :=
  { wallets := [], transactions := [], payment_methods := [], next_id := 0 }

/-- Sum of the amounts of a wallet's `completed` transactions. -/
def completedSum (s : LedgerState) (wid : Nat) : Int :=
  ((s.transactions.filter (fun t =>
      decide (t.wallet_id = wid ∧ t.transaction_status = TxStatus.completed))).map
    (fun t => t.amount)).sum

/-- The ledger/balance consistency invariant: every wallet's balance is
the sum of its `completed` transaction amounts. -/
def balanceConsistent (s : LedgerState) : Prop :=
  ∀ w ∈ s.wallets, w.balance = completedSum s w.wallet_id

/-- A wallet's transaction log, in creation order. -/
def walletTxns (s : LedgerState) (wid : Nat) : List WalletTransaction :=
  s.transactions.filter (fun t => decide (t.wallet_id = wid))

/-- A wallet's balance, when the wallet exists. -/
def balanceOf (s : LedgerState) (wid : Nat) : Option Int :=
  (findWallet s wid).map (fun w => w.balance)

/-- Number of payment methods of wallet `wid` flagged as the default. -/
def defaultCount (s : LedgerState) (wid : Nat) : Nat :=
  s.payment_methods.countP (fun p => decide (p.wallet_id = wid ∧ p.is_default = true))

/-! ### Basic lemmas about lookups and updates -/

theorem findWallet_mem {s : LedgerState} {wid : Nat} {w : MerchantWallet}
    (h : findWallet s wid = some w) : w ∈ s.wallets :=
  List.mem_of_find?_eq_some h

theorem findWallet_id {s : LedgerState} {wid : Nat} {w : MerchantWallet}
    (h : findWallet s wid = some w) : w.wallet_id = wid := by
  have := List.find?_some h
  simpa using this

theorem getPaymentMethod_mem {s : LedgerState} {pmid : Nat} {m : PaymentMethod}
    (h : getPaymentMethod s pmid = some m) : m ∈ s.payment_methods :=
  List.mem_of_find?_eq_some h

theorem getPaymentMethod_id {s : LedgerState} {pmid : Nat} {m : PaymentMethod}
    (h : getPaymentMethod s pmid = some m) : m.payment_method_id = pmid := by
  have := List.find?_some h
  simpa using this

theorem updateWallet_find_self {l : List MerchantWallet} {wid : Nat}
    {w nw : MerchantWallet}
    (hf : l.find? (fun x => decide (x.wallet_id = wid)) = some w)
    (hnw : nw.wallet_id = wid) :
    (updateWallet l wid nw).find? (fun x => decide (x.wallet_id = wid)) = some nw := by
  induction l with
  | nil => simp at hf
  | cons a t ih =>
    by_cases ha : a.wallet_id = wid
    · simp [updateWallet, ha, hnw]
    · have hf' : t.find? (fun x => decide (x.wallet_id = wid)) = some w := by
        rw [List.find?_cons_of_neg _ (by simpa using ha)] at hf
        exact hf
      have := ih hf'
      simpa [updateWallet, ha] using this

theorem updateWallet_cons (a : MerchantWallet) (t : List MerchantWallet)
    (wid : Nat) (nw : MerchantWallet) :
    updateWallet (a :: t) wid nw =
      (if a.wallet_id = wid then nw else a) :: updateWallet t wid nw := rfl

theorem updateWallet_find_ne {l : List MerchantWallet} {wid wid' : Nat}
    {nw : MerchantWallet} (hnw : nw.wallet_id = wid) (hne : wid' ≠ wid) :
    (updateWallet l wid nw).find? (fun x => decide (x.wallet_id = wid')) =
      l.find? (fun x => decide (x.wallet_id = wid')) := by
  induction l with
  | nil => simp [updateWallet]
  | cons a t ih =>
    rw [updateWallet_cons]
    by_cases ha : a.wallet_id = wid
    · have ha' : ¬ a.wallet_id = wid' := by rw [ha]; exact fun h => hne h.symm
      have hnw' : ¬ nw.wallet_id = wid' := by rw [hnw]; exact fun h => hne h.symm
      rw [if_pos ha, List.find?_cons_of_neg _ (by simpa using hnw'),
        List.find?_cons_of_neg _ (by simpa using ha')]
      exact ih
    · rw [if_neg ha]
      by_cases ha2 : a.wallet_id = wid'
      · rw [List.find?_cons_of_pos _ (by simpa using ha2),
          List.find?_cons_of_pos _ (by simpa using ha2)]
      · rw [List.find?_cons_of_neg _ (by simpa using ha2),
          List.find?_cons_of_neg _ (by simpa using ha2)]
        exact ih

theorem updateWallet_mem {l : List MerchantWallet} {wid : Nat}
    {nw x : MerchantWallet} (hx : x ∈ updateWallet l wid nw) :
    x = nw ∨ (x ∈ l ∧ ¬ x.wallet_id = wid) := by
  unfold updateWallet at hx
  rcases List.mem_map.1 hx with ⟨a, hal, heq⟩
  by_cases ha : a.wallet_id = wid
  · left
    rw [if_pos ha] at heq
    exact heq.symm
  · right
    rw [if_neg ha] at heq
    exact heq ▸ ⟨hal, ha⟩

theorem updateWallet_exists_id {l : List MerchantWallet} {wid : Nat}
    {nw : MerchantWallet} (hnw : nw.wallet_id = wid)
    {a : MerchantWallet} (ha : a ∈ l) :
    ∃ b ∈ updateWallet l wid nw, b.wallet_id = a.wallet_id := by
  by_cases h : a.wallet_id = wid
  · refine ⟨nw, ?_, by rw [hnw, h]⟩
    have := List.mem_map_of_mem (fun w => if w.wallet_id = wid then nw else w) ha
    simpa [updateWallet, if_pos h] using this
  · refine ⟨a, ?_, rfl⟩
    have := List.mem_map_of_mem (fun w => if w.wallet_id = wid then nw else w) ha
    simpa [updateWallet, if_neg h] using this

theorem updateWallet_self_mem {l : List MerchantWallet} {wid : Nat}
    {nw : MerchantWallet} {a : MerchantWallet} (ha : a ∈ l)
    (h : a.wallet_id = wid) : nw ∈ updateWallet l wid nw := by
  have := List.mem_map_of_mem (fun w => if w.wallet_id = wid then nw else w) ha
  simpa [updateWallet, if_pos h] using this

/-! ### How the derived observations change under a log append -/

theorem completedSum_mk (s : LedgerState) (ws : List MerchantWallet)
    (t : WalletTransaction) (n : Nat) (wid : Nat) :
    completedSum
        { s with wallets := ws, transactions := s.transactions ++ [t], next_id := n }
        wid =
      completedSum s wid +
        (if t.wallet_id = wid ∧ t.transaction_status = TxStatus.completed then
          t.amount else 0) := by
  by_cases h : t.wallet_id = wid ∧ t.transaction_status = TxStatus.completed
  · simp [completedSum, List.filter_append, h]
  · simp [completedSum, List.filter_append, h]

theorem walletTxns_mk (s : LedgerState) (ws : List MerchantWallet)
    (t : WalletTransaction) (n : Nat) (wid : Nat) :
    walletTxns
        { s with wallets := ws, transactions := s.transactions ++ [t], next_id := n }
        wid =
      walletTxns s wid ++ (if t.wallet_id = wid then [t] else []) := by
  by_cases h : t.wallet_id = wid
  · simp [walletTxns, List.filter_append, h]
  · simp [walletTxns, List.filter_append, h]

theorem completedSum_of_fresh {s : LedgerState} {wid : Nat}
    (h : ∀ t ∈ s.transactions, ¬ t.wallet_id = wid) :
    completedSum s wid = 0 := by
  have : s.transactions.filter (fun t =>
      decide (t.wallet_id = wid ∧ t.transaction_status = TxStatus.completed)) = [] := by
    refine List.filter_eq_nil_iff.2 (fun t ht => ?_)
    simp only [decide_eq_true_eq, not_and]
    intro hw
    exact absurd hw (h t ht)
  unfold completedSum
  rw [this]
  rfl

/-! ### Characterizations of the ledger operations -/

theorem process_transaction_none {s : LedgerState} {wid : Nat} {amt : Int}
    {tt : TxType} (h : findWallet s wid = none) :
    process_transaction s wid amt tt = Except.error LedgerError.doesNotExist := by
  unfold process_transaction
  rw [h]

theorem process_transaction_inactive {s : LedgerState} {wid : Nat} {amt : Int}
    {tt : TxType} {w : MerchantWallet} (h : findWallet s wid = some w)
    (hst : ¬ w.status = WalletStatus.active) :
    process_transaction s wid amt tt = Except.error (LedgerError.notActive w.status) := by
  unfold process_transaction
  rw [h]
  simp [hst]

theorem process_transaction_insufficient {s : LedgerState} {wid : Nat} {amt : Int}
    {tt : TxType} {w : MerchantWallet} (h : findWallet s wid = some w)
    (hst : w.status = WalletStatus.active) (hb : w.balance + amt < 0) :
    process_transaction s wid amt tt =
      Except.error (LedgerError.insufficientFunds w.balance amt (w.balance + amt)) := by
  unfold process_transaction
  rw [h]
  simp [hst, hb]

theorem process_transaction_ok_of {s : LedgerState} {wid : Nat} {amt : Int}
    {tt : TxType} {w : MerchantWallet} (h : findWallet s wid = some w)
    (hst : w.status = WalletStatus.active) (hb : 0 ≤ w.balance + amt) :
    process_transaction s wid amt tt =
      Except.ok
        ({ s with
            wallets := updateWallet s.wallets wid { w with balance := w.balance + amt },
            transactions := s.transactions ++
              [{ transaction_id := s.next_id, wallet_id := wid, amount := amt,
                 transaction_type := tt, transaction_status := TxStatus.completed }],
            next_id := s.next_id + 1 },
         { transaction_id := s.next_id, wallet_id := wid, amount := amt,
           transaction_type := tt, transaction_status := TxStatus.completed }) := by
  unfold process_transaction
  rw [h]
  simp [hst, not_lt.2 hb]

theorem process_transaction_ok_spec {s : LedgerState} {wid : Nat} {amt : Int}
    {tt : TxType} {s' : LedgerState} {txn : WalletTransaction}
    (h : process_transaction s wid amt tt = Except.ok (s', txn)) :
    ∃ w, findWallet s wid = some w ∧ w.status = WalletStatus.active ∧
      0 ≤ w.balance + amt ∧
      txn = { transaction_id := s.next_id, wallet_id := wid, amount := amt,
              transaction_type := tt, transaction_status := TxStatus.completed } ∧
      s' = { s with
              wallets := updateWallet s.wallets wid { w with balance := w.balance + amt },
              transactions := s.transactions ++ [txn],
              next_id := s.next_id + 1 } := by
  cases hf : findWallet s wid with
  | none => rw [process_transaction_none hf] at h; cases h
  | some w =>
    by_cases hst : w.status = WalletStatus.active
    · by_cases hb : w.balance + amt < 0
      · rw [process_transaction_insufficient hf hst hb] at h; cases h
      · rw [process_transaction_ok_of hf hst (not_lt.1 hb)] at h
        have h' := h
        injection h' with h2
        injection h2 with hs ht
        exact ⟨w, rfl, hst, not_lt.1 hb, ht.symm, by rw [← hs, ← ht]⟩
    · rw [process_transaction_inactive hf hst] at h; cases h

theorem process_transaction_findWallet_ne {s : LedgerState} {wid : Nat} {amt : Int}
    {tt : TxType} {s' : LedgerState} {txn : WalletTransaction} {wid' : Nat}
    (h : process_transaction s wid amt tt = Except.ok (s', txn)) (hne : wid' ≠ wid) :
    findWallet s' wid' = findWallet s wid' := by
  rcases process_transaction_ok_spec h with ⟨w, hf, _, _, _, hs⟩
  rw [hs]
  exact updateWallet_find_ne (by simp [findWallet_id hf]) hne

theorem suspend_wallet_ok_spec {s : LedgerState} {wid : Nat}
    {s' : LedgerState} {w' : MerchantWallet}
    (h : suspend_wallet s wid = Except.ok (s', w')) :
    ∃ w, findWallet s wid = some w ∧ ¬ w.status = WalletStatus.suspended ∧
      w' = { w with status := WalletStatus.suspended } ∧
      s' = { s with
              wallets := updateWallet s.wallets wid w',
              transactions := s.transactions ++
                [{ transaction_id := s.next_id, wallet_id := wid, amount := 0,
                   transaction_type := TxType.adjustment,
                   transaction_status := TxStatus.completed }],
              next_id := s.next_id + 1 } := by
  unfold suspend_wallet at h
  cases hf : findWallet s wid with
  | none => rw [hf] at h; cases h
  | some w =>
    rw [hf] at h
    by_cases hst : w.status = WalletStatus.suspended
    · simp [hst] at h
    · simp only [if_neg hst, Except.ok.injEq, Prod.mk.injEq] at h
      obtain ⟨hs, hw⟩ := h
      exact ⟨w, rfl, hst, hw.symm, by rw [← hs, ← hw]⟩

theorem reactivate_wallet_ok_spec {s : LedgerState} {wid : Nat}
    {s' : LedgerState} {w' : MerchantWallet}
    (h : reactivate_wallet s wid = Except.ok (s', w')) :
    ∃ w, findWallet s wid = some w ∧ ¬ w.status = WalletStatus.active ∧
      (w.status = WalletStatus.suspended ∨ w.status = WalletStatus.frozen) ∧
      w' = { w with status := WalletStatus.active } ∧
      s' = { s with
              wallets := updateWallet s.wallets wid w',
              transactions := s.transactions ++
                [{ transaction_id := s.next_id, wallet_id := wid, amount := 0,
                   transaction_type := TxType.adjustment,
                   transaction_status := TxStatus.completed }],
              next_id := s.next_id + 1 } := by
  unfold reactivate_wallet at h
  cases hf : findWallet s wid with
  | none => rw [hf] at h; cases h
  | some w =>
    rw [hf] at h
    by_cases hst : w.status = WalletStatus.active
    · simp [hst] at h
    · by_cases hsf : w.status = WalletStatus.suspended ∨ w.status = WalletStatus.frozen
      · simp only [if_neg hst, if_pos hsf, Except.ok.injEq, Prod.mk.injEq] at h
        obtain ⟨hs, hw⟩ := h
        exact ⟨w, rfl, hst, hsf, hw.symm, by rw [← hs, ← hw]⟩
      · simp [hst, hsf] at h

theorem create_merchant_wallet_none {s : LedgerState} {mid : Nat}
    (h : findWalletByMerchant s mid = none) :
    create_merchant_wallet s mid =
      ({ s with
          wallets := s.wallets ++
            [{ wallet_id := s.next_id, merchant_id := mid,
               balance := 0, status := WalletStatus.active }],
          next_id := s.next_id + 1 },
       { wallet_id := s.next_id, merchant_id := mid,
         balance := 0, status := WalletStatus.active }) := by
  unfold create_merchant_wallet
  rw [h]

theorem create_merchant_wallet_some {s : LedgerState} {mid : Nat}
    {w : MerchantWallet} (h : findWalletByMerchant s mid = some w) :
    create_merchant_wallet s mid = (s, w) := by
  unfold create_merchant_wallet
  rw [h]

theorem transfer_funds_ok_spec {s : LedgerState} {a b : Nat} {amt : Int}
    {s2 : LedgerState} {t1 t2 : WalletTransaction}
    (h : transfer_funds s a b amt = Except.ok (s2, t1, t2)) :
    0 < amt ∧ a ≠ b ∧
      ∃ s1, process_transaction s a (-amt) TxType.transfer_out = Except.ok (s1, t1) ∧
        process_transaction s1 b amt TxType.transfer_in = Except.ok (s2, t2) := by
  unfold transfer_funds at h
  by_cases hpos : amt ≤ 0
  · rw [if_pos hpos] at h; cases h
  · rw [if_neg hpos] at h
    by_cases hab : a = b
    · rw [if_pos hab] at h; cases h
    · rw [if_neg hab] at h
      refine ⟨lt_of_not_le hpos, hab, ?_⟩
      cases h1 : process_transaction s a (-amt) TxType.transfer_out with
      | error e => rw [h1] at h; cases h
      | ok r1 =>
        obtain ⟨s1x, t1x⟩ := r1
        rw [h1] at h
        cases h2 : process_transaction s1x b amt TxType.transfer_in with
        | error e => simp only [h2] at h; cases h
        | ok r2 =>
          obtain ⟨s2x, t2x⟩ := r2
          simp only [h2, Except.ok.injEq, Prod.mk.injEq] at h
          obtain ⟨hs, ht1, ht2⟩ := h
          exact ⟨s1x, by rw [← ht1], by rw [← hs, ← ht2]; exact h2⟩

theorem transfer_funds_nonpos {s : LedgerState} {a b : Nat} {amt : Int}
    (h : amt ≤ 0) :
    transfer_funds s a b amt = Except.error LedgerError.nonPositiveTransfer := by
  unfold transfer_funds
  rw [if_pos h]

theorem transfer_funds_same {s : LedgerState} {a b : Nat} {amt : Int}
    (hpos : ¬ amt ≤ 0) (h : a = b) :
    transfer_funds s a b amt = Except.error LedgerError.sameWallet := by
  unfold transfer_funds
  rw [if_neg hpos, if_pos h]

theorem transfer_funds_debit_error {s : LedgerState} {a b : Nat} {amt : Int}
    {e : LedgerError} (hpos : ¬ amt ≤ 0) (hab : ¬ a = b)
    (h : process_transaction s a (-amt) TxType.transfer_out = Except.error e) :
    transfer_funds s a b amt = Except.error e := by
  unfold transfer_funds
  rw [if_neg hpos, if_neg hab, h]

theorem transfer_funds_credit_error {s : LedgerState} {a b : Nat} {amt : Int}
    {s1 : LedgerState} {t1 : WalletTransaction} {e : LedgerError}
    (hpos : ¬ amt ≤ 0) (hab : ¬ a = b)
    (h1 : process_transaction s a (-amt) TxType.transfer_out = Except.ok (s1, t1))
    (h2 : process_transaction s1 b amt TxType.transfer_in = Except.error e) :
    transfer_funds s a b amt = Except.error e := by
  unfold transfer_funds
  rw [if_neg hpos, if_neg hab, h1]
  simp only [h2]

theorem add_payment_method_ok_spec {s : LedgerState} {wid : Nat} {d : Bool}
    {s' : LedgerState} {pm : PaymentMethod}
    (h : add_payment_method s wid d = Except.ok (s', pm)) :
    (∃ w, findWallet s wid = some w) ∧
      pm = { payment_method_id := s.next_id, wallet_id := wid,
             is_default := d, status := PMStatus.active } ∧
      s' = { s with
              payment_methods :=
                (if d then
                  s.payment_methods.map (fun p =>
                    if p.wallet_id = wid ∧ p.is_default = true then
                      { p with is_default := false }
                    else p)
                else s.payment_methods) ++ [pm],
              next_id := s.next_id + 1 } := by
  unfold add_payment_method at h
  cases hf : findWallet s wid with
  | none => rw [hf] at h; cases h
  | some w =>
    rw [hf] at h
    simp only [Except.ok.injEq, Prod.mk.injEq] at h
    obtain ⟨hs, hpm⟩ := h
    refine ⟨⟨w, rfl⟩, hpm.symm, ?_⟩
    rw [← hs, ← hpm]

theorem set_default_ok_spec {s : LedgerState} {pmid : Nat}
    {s' : LedgerState} {pm : PaymentMethod}
    (h : set_default_payment_method s pmid = Except.ok (s', pm)) :
    ∃ m, getPaymentMethod s pmid = some m ∧ pm = { m with is_default := true } ∧
      s' = { s with
              payment_methods :=
                (s.payment_methods.map (fun p =>
                  if p.wallet_id = m.wallet_id ∧ p.is_default = true ∧
                      p.payment_method_id ≠ pmid then
                    { p with is_default := false }
                  else p)).map
                  (fun p =>
                    if p.payment_method_id = pmid then { m with is_default := true }
                    else p) } := by
  unfold set_default_payment_method at h
  cases hf : getPaymentMethod s pmid with
  | none => rw [hf] at h; cases h
  | some m =>
    rw [hf] at h
    simp only [Except.ok.injEq, Prod.mk.injEq] at h
    obtain ⟨hs, hpm⟩ := h
    exact ⟨m, rfl, hpm.symm, by rw [← hs]⟩

theorem deactivate_ok_spec {s : LedgerState} {pmid : Nat}
    {s' : LedgerState} {pm : PaymentMethod}
    (h : deactivate_payment_method s pmid = Except.ok (s', pm)) :
    ∃ m, getPaymentMethod s pmid = some m ∧
      pm = { m with status := PMStatus.inactive, is_default := false } ∧
      s' = { s with
              payment_methods :=
                s.payment_methods.map (fun p =>
                  if p.payment_method_id = pmid then pm else p) } := by
  unfold deactivate_payment_method at h
  cases hf : getPaymentMethod s pmid with
  | none => rw [hf] at h; cases h
  | some m =>
    rw [hf] at h
    simp only [Except.ok.injEq, Prod.mk.injEq] at h
    obtain ⟨hs, hpm⟩ := h
    exact ⟨m, rfl, hpm.symm, by rw [← hs, ← hpm]⟩

/-! ### Counting helpers for the single-default invariant -/

theorem countP_pk_le_one {l : List PaymentMethod}
    (h : (l.map PaymentMethod.payment_method_id).Nodup) (pmid : Nat) :
    l.countP (fun p => decide (p.payment_method_id = pmid)) ≤ 1 := by
  induction l with
  | nil => simp
  | cons a t ih =>
    rw [List.map_cons, List.nodup_cons] at h
    rw [List.countP_cons]
    by_cases ha : a.payment_method_id = pmid
    · have hzero : t.countP (fun p => decide (p.payment_method_id = pmid)) = 0 := by
        refine List.countP_eq_zero.2 (fun b hb => ?_)
        simp only [decide_eq_true_eq]
        intro hbid
        have hmem := List.mem_map_of_mem PaymentMethod.payment_method_id hb
        rw [hbid] at hmem
        exact h.1 (by rw [ha]; exact hmem)
      simp [ha, hzero]
    · have hle := ih h.2
      have ha' : decide (a.payment_method_id = pmid) = false := by simp [ha]
      simp [ha']
      omega

/-! ### The reachable-state invariant -/

/-- Everything that holds of every database state reachable through the
ledger services: primary keys are below the fresh-id counter, transaction
rows reference existing wallets, every balance matches its completed
ledger sum and is non-negative, and each wallet has at most one default
payment method. -/
structure LedgerInv (s : LedgerState) : Prop where
  wLt : ∀ w ∈ s.wallets, w.wallet_id < s.next_id
  tLt : ∀ t ∈ s.transactions, t.wallet_id < s.next_id
  tEx : ∀ t ∈ s.transactions, ∃ w ∈ s.wallets, w.wallet_id = t.wallet_id
  pmLt : ∀ p ∈ s.payment_methods, p.payment_method_id < s.next_id
  pmNodup : (s.payment_methods.map PaymentMethod.payment_method_id).Nodup
  bal : balanceConsistent s
  nonneg : ∀ w ∈ s.wallets, 0 ≤ w.balance
  dflt : ∀ wid, defaultCount s wid ≤ 1

theorem inv_initState : LedgerInv initState := by
  constructor <;> simp [initState, balanceConsistent, defaultCount]

theorem inv_process_ok {s : LedgerState} {wid : Nat} {amt : Int} {tt : TxType}
    {s' : LedgerState} {txn : WalletTransaction} (hInv : LedgerInv s)
    (h : process_transaction s wid amt tt = Except.ok (s', txn)) : LedgerInv s' := by
  rcases process_transaction_ok_spec h with ⟨w, hf, hst, hb, htxn, hs⟩
  have hwid : w.wallet_id = wid := findWallet_id hf
  have hwmem : w ∈ s.wallets := findWallet_mem hf
  have hnwid : (MerchantWallet.mk w.wallet_id w.merchant_id (w.balance + amt)
      w.status).wallet_id = wid := hwid
  subst htxn
  subst hs
  constructor
  · intro w' hw'
    rcases updateWallet_mem hw' with rfl | ⟨hmem, _⟩
    · exact Nat.lt_succ_of_lt (hwid ▸ hInv.wLt w hwmem)
    · exact Nat.lt_succ_of_lt (hInv.wLt w' hmem)
  · intro t ht
    rcases List.mem_append.1 ht with hmem | hmem
    · exact Nat.lt_succ_of_lt (hInv.tLt t hmem)
    · have ht' : t = WalletTransaction.mk s.next_id wid amt tt TxStatus.completed := by
        simpa using hmem
      rw [ht']
      exact Nat.lt_succ_of_lt (hwid ▸ hInv.wLt w hwmem)
  · intro t ht
    rcases List.mem_append.1 ht with hmem | hmem
    · rcases hInv.tEx t hmem with ⟨wx, hwx, hid⟩
      rcases updateWallet_exists_id hnwid hwx with ⟨bb, hbb, hbid⟩
      exact ⟨bb, hbb, hbid.trans hid⟩
    · have ht' : t = WalletTransaction.mk s.next_id wid amt tt TxStatus.completed := by
        simpa using hmem
      refine ⟨_, updateWallet_self_mem hwmem hwid, ?_⟩
      rw [ht']
      exact hnwid
  · intro p hp
    exact Nat.lt_succ_of_lt (hInv.pmLt p hp)
  · exact hInv.pmNodup
  · intro w' hw'
    rw [completedSum_mk]
    rcases updateWallet_mem hw' with rfl | ⟨hmem, hne⟩
    · have hbalw := hInv.bal w hwmem
      show w.balance + amt = completedSum s w.wallet_id +
        (if wid = w.wallet_id ∧ TxStatus.completed = TxStatus.completed then amt else 0)
      rw [if_pos ⟨hwid.symm, rfl⟩]
      omega
    · have hbalw := hInv.bal w' hmem
      show w'.balance = completedSum s w'.wallet_id +
        (if wid = w'.wallet_id ∧ TxStatus.completed = TxStatus.completed then amt else 0)
      rw [if_neg (fun hc => hne hc.1.symm)]
      omega
  · intro w' hw'
    rcases updateWallet_mem hw' with rfl | ⟨hmem, _⟩
    · exact hb
    · exact hInv.nonneg w' hmem
  · intro wid'
    exact hInv.dflt wid'

theorem inv_status_change {s : LedgerState} {wid : Nat} {w : MerchantWallet}
    (hInv : LedgerInv s) (hf : findWallet s wid = some w) (st : WalletStatus) :
    LedgerInv { s with
      wallets := updateWallet s.wallets wid { w with status := st },
      transactions := s.transactions ++
        [{ transaction_id := s.next_id, wallet_id := wid, amount := 0,
           transaction_type := TxType.adjustment,
           transaction_status := TxStatus.completed }],
      next_id := s.next_id + 1 } := by
  have hwid : w.wallet_id = wid := findWallet_id hf
  have hwmem : w ∈ s.wallets := findWallet_mem hf
  have hnwid : (MerchantWallet.mk w.wallet_id w.merchant_id w.balance st).wallet_id = wid :=
    hwid
  constructor
  · intro w' hw'
    rcases updateWallet_mem hw' with rfl | ⟨hmem, _⟩
    · exact Nat.lt_succ_of_lt (hwid ▸ hInv.wLt w hwmem)
    · exact Nat.lt_succ_of_lt (hInv.wLt w' hmem)
  · intro t ht
    rcases List.mem_append.1 ht with hmem | hmem
    · exact Nat.lt_succ_of_lt (hInv.tLt t hmem)
    · have ht' : t = WalletTransaction.mk s.next_id wid 0 TxType.adjustment
          TxStatus.completed := by
        simpa using hmem
      rw [ht']
      exact Nat.lt_succ_of_lt (hwid ▸ hInv.wLt w hwmem)
  · intro t ht
    rcases List.mem_append.1 ht with hmem | hmem
    · rcases hInv.tEx t hmem with ⟨wx, hwx, hid⟩
      rcases updateWallet_exists_id hnwid hwx with ⟨bb, hbb, hbid⟩
      exact ⟨bb, hbb, hbid.trans hid⟩
    · have ht' : t = WalletTransaction.mk s.next_id wid 0 TxType.adjustment
          TxStatus.completed := by
        simpa using hmem
      refine ⟨_, updateWallet_self_mem hwmem hwid, ?_⟩
      rw [ht']
      exact hnwid
  · intro p hp
    exact Nat.lt_succ_of_lt (hInv.pmLt p hp)
  · exact hInv.pmNodup
  · intro w' hw'
    rw [completedSum_mk]
    rcases updateWallet_mem hw' with rfl | ⟨hmem, hne⟩
    · have hbalw := hInv.bal w hwmem
      show w.balance = completedSum s w.wallet_id +
        (if wid = w.wallet_id ∧ TxStatus.completed = TxStatus.completed then 0 else 0)
      rw [ite_self]
      omega
    · have hbalw := hInv.bal w' hmem
      show w'.balance = completedSum s w'.wallet_id +
        (if wid = w'.wallet_id ∧ TxStatus.completed = TxStatus.completed then 0 else 0)
      rw [ite_self]
      omega
  · intro w' hw'
    rcases updateWallet_mem hw' with rfl | ⟨hmem, _⟩
    · exact hInv.nonneg w hwmem
    · exact hInv.nonneg w' hmem
  · intro wid'
    exact hInv.dflt wid'

theorem inv_suspend_ok {s : LedgerState} {wid : Nat} {s' : LedgerState}
    {w' : MerchantWallet} (hInv : LedgerInv s)
    (h : suspend_wallet s wid = Except.ok (s', w')) : LedgerInv s' := by
  rcases suspend_wallet_ok_spec h with ⟨w, hf, _, hw', hs⟩
  subst hw'
  subst hs
  exact inv_status_change hInv hf WalletStatus.suspended

theorem inv_reactivate_ok {s : LedgerState} {wid : Nat} {s' : LedgerState}
    {w' : MerchantWallet} (hInv : LedgerInv s)
    (h : reactivate_wallet s wid = Except.ok (s', w')) : LedgerInv s' := by
  rcases reactivate_wallet_ok_spec h with ⟨w, hf, _, _, hw', hs⟩
  subst hw'
  subst hs
  exact inv_status_change hInv hf WalletStatus.active

theorem inv_create (s : LedgerState) (mid : Nat) (hInv : LedgerInv s) :
    LedgerInv (create_merchant_wallet s mid).1 := by
  cases hf : findWalletByMerchant s mid with
  | some w =>
    rw [create_merchant_wallet_some hf]
    exact hInv
  | none =>
    rw [create_merchant_wallet_none hf]
    constructor
    · intro w' hw'
      rcases List.mem_append.1 hw' with hmem | hmem
      · exact Nat.lt_succ_of_lt (hInv.wLt w' hmem)
      · have : w' = MerchantWallet.mk s.next_id mid 0 WalletStatus.active := by
          simpa using hmem
        rw [this]
        exact Nat.lt_succ_self _
    · intro t ht
      exact Nat.lt_succ_of_lt (hInv.tLt t ht)
    · intro t ht
      rcases hInv.tEx t ht with ⟨wx, hwx, hid⟩
      exact ⟨wx, List.mem_append_left _ hwx, hid⟩
    · intro p hp
      exact Nat.lt_succ_of_lt (hInv.pmLt p hp)
    · exact hInv.pmNodup
    · intro w' hw'
      rcases List.mem_append.1 hw' with hmem | hmem
      · exact hInv.bal w' hmem
      · have hw'' : w' = MerchantWallet.mk s.next_id mid 0 WalletStatus.active := by
          simpa using hmem
        rw [hw'']
        show (0 : Int) = completedSum s s.next_id
        rw [completedSum_of_fresh (fun t ht =>
          Nat.ne_of_lt (hInv.tLt t ht))]
    · intro w' hw'
      rcases List.mem_append.1 hw' with hmem | hmem
      · exact hInv.nonneg w' hmem
      · have : w' = MerchantWallet.mk s.next_id mid 0 WalletStatus.active := by
          simpa using hmem
        rw [this]
    · intro wid'
      exact hInv.dflt wid'

theorem map_pid_of_preserve {l : List PaymentMethod} {F : PaymentMethod → PaymentMethod}
    (hF : ∀ p, (F p).payment_method_id = p.payment_method_id) :
    (l.map F).map PaymentMethod.payment_method_id =
      l.map PaymentMethod.payment_method_id := by
  rw [List.map_map]
  exact List.map_congr_left (fun a _ => hF a)

theorem countP_map_le {l : List PaymentMethod} {F : PaymentMethod → PaymentMethod}
    {p : PaymentMethod → Bool}
    (h : ∀ a ∈ l, p (F a) = true → p a = true) :
    (l.map F).countP p ≤ l.countP p := by
  rw [List.countP_map]
  exact List.countP_mono_left (fun a ha => h a ha)

theorem pmLt_of_map {l : List PaymentMethod} {F : PaymentMethod → PaymentMethod}
    {n : Nat} (hF : ∀ p, (F p).payment_method_id = p.payment_method_id)
    (hlt : ∀ p ∈ l, p.payment_method_id < n) :
    ∀ p ∈ l.map F, p.payment_method_id < n := by
  intro p hp
  rcases List.mem_map.1 hp with ⟨a, ha, rfl⟩
  rw [hF]
  exact hlt a ha

theorem inv_add_ok {s : LedgerState} {wid : Nat} {d : Bool} {s' : LedgerState}
    {pm : PaymentMethod} (hInv : LedgerInv s)
    (h : add_payment_method s wid d = Except.ok (s', pm)) : LedgerInv s' := by
  rcases add_payment_method_ok_spec h with ⟨⟨w, hf⟩, hpm, hs⟩
  subst hpm
  subst hs
  have hclear : ∀ p : PaymentMethod,
      ((if p.wallet_id = wid ∧ p.is_default = true then
        { p with is_default := false } else p) : PaymentMethod).payment_method_id =
      p.payment_method_id := by
    intro p
    by_cases hc : p.wallet_id = wid ∧ p.is_default = true
    · simp [hc]
    · simp [hc]
  have hcl_mem : ∀ q,
      q ∈ (if d then
            s.payment_methods.map (fun p =>
              if p.wallet_id = wid ∧ p.is_default = true then
                { p with is_default := false } else p)
          else s.payment_methods) →
      ∃ a ∈ s.payment_methods, q.payment_method_id = a.payment_method_id := by
    intro q hq
    cases d with
    | false => exact ⟨q, by simpa using hq, rfl⟩
    | true =>
      rcases List.mem_map.1 (by simpa using hq) with ⟨a, ha, rfl⟩
      exact ⟨a, ha, hclear a⟩
  have hids : ((if d then
        s.payment_methods.map (fun p =>
          if p.wallet_id = wid ∧ p.is_default = true then
            { p with is_default := false } else p)
      else s.payment_methods)).map PaymentMethod.payment_method_id =
      s.payment_methods.map PaymentMethod.payment_method_id := by
    cases d with
    | false => rfl
    | true => exact map_pid_of_preserve hclear
  constructor
  · intro w' hw'
    exact Nat.lt_succ_of_lt (hInv.wLt w' hw')
  · intro t ht
    exact Nat.lt_succ_of_lt (hInv.tLt t ht)
  · exact hInv.tEx
  · intro p hp
    rcases List.mem_append.1 hp with hmem | hmem
    · rcases hcl_mem p hmem with ⟨a, ha, hid⟩
      rw [hid]
      exact Nat.lt_succ_of_lt (hInv.pmLt a ha)
    · have : p = PaymentMethod.mk s.next_id wid d PMStatus.active := by
        simpa using hmem
      rw [this]
      exact Nat.lt_succ_self _
  · rw [List.map_append, hids]
    refine List.Nodup.append hInv.pmNodup (List.nodup_singleton _) ?_
    intro x hx hx2
    have hxval : x = s.next_id := by simpa using hx2
    rcases List.mem_map.1 hx with ⟨a, ha, haeq⟩
    exact absurd (hxval ▸ haeq) (Nat.ne_of_lt (hInv.pmLt a ha))
  · exact hInv.bal
  · exact hInv.nonneg
  · intro wid'
    have hbase := hInv.dflt wid'
    show List.countP _ (_ ++ [PaymentMethod.mk s.next_id wid d PMStatus.active]) ≤ 1
    rw [List.countP_append]
    cases d with
    | false =>
      have hsing : List.countP
          (fun p => decide (p.wallet_id = wid' ∧ p.is_default = true))
          [PaymentMethod.mk s.next_id wid false PMStatus.active] = 0 := by
        simp
      rw [hsing]
      have hone : List.countP
          (fun p => decide (p.wallet_id = wid' ∧ p.is_default = true))
          (if (false : Bool) then
            s.payment_methods.map (fun p =>
              if p.wallet_id = wid ∧ p.is_default = true then
                { p with is_default := false } else p)
          else s.payment_methods) = defaultCount s wid' := rfl
      rw [hone]
      omega
    | true =>
      by_cases hww : wid' = wid
      · subst hww
        have hzero : List.countP
            (fun p => decide (p.wallet_id = wid' ∧ p.is_default = true))
            (s.payment_methods.map (fun p =>
              if p.wallet_id = wid' ∧ p.is_default = true then
                { p with is_default := false } else p)) = 0 := by
          rw [List.countP_eq_zero]
          intro q hq
          rcases List.mem_map.1 hq with ⟨a, ha, rfl⟩
          by_cases hc : a.wallet_id = wid' ∧ a.is_default = true
          · simp [hc]
          · simp only [if_neg hc, decide_eq_true_eq]
            exact hc
        have hsing : List.countP
            (fun p => decide (p.wallet_id = wid' ∧ p.is_default = true))
            [PaymentMethod.mk s.next_id wid' true PMStatus.active] = 1 := by
          simp
        show List.countP _ (s.payment_methods.map _) +
          List.countP _ [PaymentMethod.mk s.next_id wid' true PMStatus.active] ≤ 1
        rw [hzero, hsing]
      · have hle : List.countP
            (fun p => decide (p.wallet_id = wid' ∧ p.is_default = true))
            (s.payment_methods.map (fun p =>
              if p.wallet_id = wid ∧ p.is_default = true then
                { p with is_default := false } else p)) ≤ defaultCount s wid' := by
          refine countP_map_le ?_
          intro a _ hpa
          by_cases hc : a.wallet_id = wid ∧ a.is_default = true
          · simp [hc] at hpa
          · simpa [hc] using hpa
        have hsing : List.countP
            (fun p => decide (p.wallet_id = wid' ∧ p.is_default = true))
            [PaymentMethod.mk s.next_id wid true PMStatus.active] = 0 := by
          have hne : ¬ (wid = wid') := fun hc => hww hc.symm
          simp [hne]
        show List.countP _ (s.payment_methods.map _) +
          List.countP _ [PaymentMethod.mk s.next_id wid true PMStatus.active] ≤ 1
        rw [hsing]
        omega

theorem countP_pid_map {l : List PaymentMethod} {F : PaymentMethod → PaymentMethod}
    (hF : ∀ p, (F p).payment_method_id = p.payment_method_id) (c : Nat) :
    (l.map F).countP (fun p => decide (p.payment_method_id = c)) =
      l.countP (fun p => decide (p.payment_method_id = c)) := by
  rw [List.countP_map]
  refine List.countP_congr (fun a _ => ?_)
  simp [Function.comp, hF]

theorem inv_setdflt_ok {s : LedgerState} {pmid : Nat} {s' : LedgerState}
    {pm : PaymentMethod} (hInv : LedgerInv s)
    (h : set_default_payment_method s pmid = Except.ok (s', pm)) : LedgerInv s' := by
  rcases set_default_ok_spec h with ⟨m, hg, hpm, hs⟩
  subst hpm
  subst hs
  have hmid : m.payment_method_id = pmid := getPaymentMethod_id hg
  have hFid : ∀ p : PaymentMethod,
      ((if p.wallet_id = m.wallet_id ∧ p.is_default = true ∧
          p.payment_method_id ≠ pmid then
        { p with is_default := false } else p) : PaymentMethod).payment_method_id =
      p.payment_method_id := by
    intro p
    by_cases hc : p.wallet_id = m.wallet_id ∧ p.is_default = true ∧
        p.payment_method_id ≠ pmid
    · simp [hc]
    · simp [hc]
  have hGid : ∀ p : PaymentMethod,
      ((if p.payment_method_id = pmid then
        ({ m with is_default := true } : PaymentMethod) else p) :
        PaymentMethod).payment_method_id = p.payment_method_id := by
    intro p
    by_cases hc : p.payment_method_id = pmid
    · rw [if_pos hc]
      show m.payment_method_id = p.payment_method_id
      rw [hmid, hc]
    · rw [if_neg hc]
  have hids : ((s.payment_methods.map (fun p =>
        if p.wallet_id = m.wallet_id ∧ p.is_default = true ∧
            p.payment_method_id ≠ pmid then
          { p with is_default := false } else p)).map
        (fun p => if p.payment_method_id = pmid then
          { m with is_default := true } else p)).map
        PaymentMethod.payment_method_id =
      s.payment_methods.map PaymentMethod.payment_method_id := by
    rw [map_pid_of_preserve hGid, map_pid_of_preserve hFid]
  constructor
  · exact hInv.wLt
  · exact hInv.tLt
  · exact hInv.tEx
  · intro p hp
    have hpmem := List.mem_map_of_mem PaymentMethod.payment_method_id hp
    rw [hids] at hpmem
    rcases List.mem_map.1 hpmem with ⟨a, ha, haeq⟩
    rw [← haeq]
    exact hInv.pmLt a ha
  · rw [hids]
    exact hInv.pmNodup
  · exact hInv.bal
  · exact hInv.nonneg
  · intro wid'
    simp only [defaultCount]
    have hmapmap : (s.payment_methods.map (fun p =>
          if p.wallet_id = m.wallet_id ∧ p.is_default = true ∧
              p.payment_method_id ≠ pmid then
            { p with is_default := false } else p)).map
          (fun p => if p.payment_method_id = pmid then
            { m with is_default := true } else p) =
        s.payment_methods.map (fun a =>
          if a.payment_method_id = pmid then
            ({ m with is_default := true } : PaymentMethod)
          else if a.wallet_id = m.wallet_id ∧ a.is_default = true then
            { a with is_default := false }
          else a) := by
      rw [List.map_map]
      refine List.map_congr_left (fun a _ => ?_)
      by_cases hpid : a.payment_method_id = pmid
      · simp [hpid]
      · by_cases hcc : a.wallet_id = m.wallet_id ∧ a.is_default = true
        · simp [hpid, hcc.1, hcc.2]
        · have hfc : ¬ (a.wallet_id = m.wallet_id ∧ a.is_default = true ∧
              a.payment_method_id ≠ pmid) := fun hx => hcc ⟨hx.1, hx.2.1⟩
          simp [hpid, hcc, hfc]
    rw [hmapmap, List.countP_map]
    by_cases hww : wid' = m.wallet_id
    · refine le_trans (List.countP_mono_left ?_) (countP_pk_le_one hInv.pmNodup pmid)
      intro a ha hpa
      simp only [Function.comp] at hpa
      by_cases hpid : a.payment_method_id = pmid
      · simpa using hpid
      · exfalso
        by_cases hcc : a.wallet_id = m.wallet_id ∧ a.is_default = true
        · simp [hpid, hcc.1, hcc.2] at hpa
        · simp [hpid, hcc] at hpa
          exact hcc ⟨hpa.1.trans hww, hpa.2⟩
    · refine le_trans (List.countP_mono_left ?_) (hInv.dflt wid')
      intro a ha hpa
      simp only [Function.comp] at hpa
      by_cases hpid : a.payment_method_id = pmid
      · exfalso
        simp [hpid] at hpa
        exact hww hpa.symm
      · by_cases hcc : a.wallet_id = m.wallet_id ∧ a.is_default = true
        · exfalso
          simp [hpid, hcc.1, hcc.2] at hpa
        · simp [hpid, hcc] at hpa
          simpa using hpa

theorem inv_deact_ok {s : LedgerState} {pmid : Nat} {s' : LedgerState}
    {pm : PaymentMethod} (hInv : LedgerInv s)
    (h : deactivate_payment_method s pmid = Except.ok (s', pm)) : LedgerInv s' := by
  rcases deactivate_ok_spec h with ⟨m, hg, hpm, hs⟩
  subst hpm
  subst hs
  have hmid : m.payment_method_id = pmid := getPaymentMethod_id hg
  have hHid : ∀ p : PaymentMethod,
      ((if p.payment_method_id = pmid then
        ({ m with status := PMStatus.inactive, is_default := false } :
          PaymentMethod) else p) : PaymentMethod).payment_method_id =
      p.payment_method_id := by
    intro p
    by_cases hc : p.payment_method_id = pmid
    · rw [if_pos hc]
      show m.payment_method_id = p.payment_method_id
      rw [hmid, hc]
    · rw [if_neg hc]
  have hids : (s.payment_methods.map (fun p =>
        if p.payment_method_id = pmid then
          { m with status := PMStatus.inactive, is_default := false }
        else p)).map PaymentMethod.payment_method_id =
      s.payment_methods.map PaymentMethod.payment_method_id :=
    map_pid_of_preserve hHid
  constructor
  · exact hInv.wLt
  · exact hInv.tLt
  · exact hInv.tEx
  · intro p hp
    have hpmem := List.mem_map_of_mem PaymentMethod.payment_method_id hp
    rw [hids] at hpmem
    rcases List.mem_map.1 hpmem with ⟨a, ha, haeq⟩
    rw [← haeq]
    exact hInv.pmLt a ha
  · rw [hids]
    exact hInv.pmNodup
  · exact hInv.bal
  · exact hInv.nonneg
  · intro wid'
    refine le_trans (countP_map_le ?_) (hInv.dflt wid')
    intro a _ hpa
    by_cases hc : a.payment_method_id = pmid
    · rw [if_pos hc] at hpa
      simp at hpa
    · rw [if_neg hc] at hpa
      exact hpa

theorem inv_transfer_ok {s : LedgerState} {a b : Nat} {amt : Int}
    {s2 : LedgerState} {t1 t2 : WalletTransaction} (hInv : LedgerInv s)
    (h : transfer_funds s a b amt = Except.ok (s2, t1, t2)) : LedgerInv s2 := by
  rcases transfer_funds_ok_spec h with ⟨_, _, s1, h1, h2⟩
  exact inv_process_ok (inv_process_ok hInv h1) h2

theorem inv_applyOp (s : LedgerState) (op : LedgerOp) (hInv : LedgerInv s) :
    LedgerInv (applyOp s op) := by
  cases op with
  | createWallet mid =>
    simpa [applyOp] using inv_create s mid hInv
  | processTx wid amt tt =>
    cases hres : process_transaction s wid amt tt with
    | error e => simpa [applyOp, hres] using hInv
    | ok r =>
      obtain ⟨s1, t1⟩ := r
      simpa [applyOp, hres] using inv_process_ok hInv hres
  | transferFunds a b amt =>
    cases hres : transfer_funds s a b amt with
    | error e => simpa [applyOp, hres] using hInv
    | ok r =>
      obtain ⟨s2, t1, t2⟩ := r
      simpa [applyOp, hres] using inv_transfer_ok hInv hres
  | suspendWallet wid =>
    cases hres : suspend_wallet s wid with
    | error e => simpa [applyOp, hres] using hInv
    | ok r =>
      obtain ⟨s1, w1⟩ := r
      simpa [applyOp, hres] using inv_suspend_ok hInv hres
  | reactivateWallet wid =>
    cases hres : reactivate_wallet s wid with
    | error e => simpa [applyOp, hres] using hInv
    | ok r =>
      obtain ⟨s1, w1⟩ := r
      simpa [applyOp, hres] using inv_reactivate_ok hInv hres
  | addPaymentMethod wid d =>
    cases hres : add_payment_method s wid d with
    | error e => simpa [applyOp, hres] using hInv
    | ok r =>
      obtain ⟨s1, p1⟩ := r
      simpa [applyOp, hres] using inv_add_ok hInv hres
  | setDefaultPaymentMethod pmid =>
    cases hres : set_default_payment_method s pmid with
    | error e => simpa [applyOp, hres] using hInv
    | ok r =>
      obtain ⟨s1, p1⟩ := r
      simpa [applyOp, hres] using inv_setdflt_ok hInv hres
  | deactivatePaymentMethod pmid =>
    cases hres : deactivate_payment_method s pmid with
    | error e => simpa [applyOp, hres] using hInv
    | ok r =>
      obtain ⟨s1, p1⟩ := r
      simpa [applyOp, hres] using inv_deact_ok hInv hres

theorem inv_applyOps (s : LedgerState) (ops : List LedgerOp)
    (hInv : LedgerInv s) : LedgerInv (applyOps s ops) := by
  induction ops generalizing s with
  | nil => exact hInv
  | cons op rest ih => exact ih (applyOp s op) (inv_applyOp s op hInv)

theorem inv_reachable (ops : List LedgerOp) : LedgerInv (applyOps initState ops) :=
  inv_applyOps initState ops inv_initState

/-! ### Observation lemmas used by the claim theorems -/

theorem applyOp_processTx_error {s : LedgerState} {wid : Nat} {amt : Int}
    {tt : TxType} {e : LedgerError}
    (h : process_transaction s wid amt tt = Except.error e) :
    applyOp s (LedgerOp.processTx wid amt tt) = s := by
  simp [applyOp, h]

theorem applyOp_transfer_error {s : LedgerState} {a b : Nat} {amt : Int}
    {e : LedgerError} (h : transfer_funds s a b amt = Except.error e) :
    applyOp s (LedgerOp.transferFunds a b amt) = s := by
  simp [applyOp, h]

theorem applyOp_transfer_ok {s : LedgerState} {a b : Nat} {amt : Int}
    {s2 : LedgerState} {t1 t2 : WalletTransaction}
    (h : transfer_funds s a b amt = Except.ok (s2, t1, t2)) :
    applyOp s (LedgerOp.transferFunds a b amt) = s2 := by
  simp [applyOp, h]

theorem findWallet_process_self {s : LedgerState} {wid : Nat} {amt : Int}
    {tt : TxType} {s' : LedgerState} {txn : WalletTransaction}
    (h : process_transaction s wid amt tt = Except.ok (s', txn)) :
    ∃ w, findWallet s wid = some w ∧
      findWallet s' wid = some { w with balance := w.balance + amt } := by
  rcases process_transaction_ok_spec h with ⟨w, hf, _, _, _, hs⟩
  subst hs
  refine ⟨w, hf, ?_⟩
  have hnw : ({ w with balance := w.balance + amt } : MerchantWallet).wallet_id = wid := by
    show w.wallet_id = wid
    exact findWallet_id hf
  exact updateWallet_find_self hf hnw

theorem walletTxns_process {s : LedgerState} {wid : Nat} {amt : Int}
    {tt : TxType} {s' : LedgerState} {txn : WalletTransaction} (wid' : Nat)
    (h : process_transaction s wid amt tt = Except.ok (s', txn)) :
    walletTxns s' wid' = walletTxns s wid' ++ (if wid = wid' then [txn] else []) := by
  rcases process_transaction_ok_spec h with ⟨w, hf, _, _, htxn, hs⟩
  subst hs
  rw [walletTxns_mk]
  subst htxn
  rfl

theorem setdflt_map_simplify (m : PaymentMethod) (pmid : Nat)
    (l : List PaymentMethod) :
    (l.map (fun p =>
        if p.wallet_id = m.wallet_id ∧ p.is_default = true ∧
            p.payment_method_id ≠ pmid then
          { p with is_default := false } else p)).map
      (fun p => if p.payment_method_id = pmid then
        { m with is_default := true } else p) =
    l.map (fun a =>
      if a.payment_method_id = pmid then
        ({ m with is_default := true } : PaymentMethod)
      else if a.wallet_id = m.wallet_id ∧ a.is_default = true then
        { a with is_default := false }
      else a) := by
  rw [List.map_map]
  refine List.map_congr_left (fun a _ => ?_)
  by_cases hpid : a.payment_method_id = pmid
  · simp [hpid]
  · by_cases hcc : a.wallet_id = m.wallet_id ∧ a.is_default = true
    · simp [hpid, hcc.1, hcc.2]
    · have hfc : ¬ (a.wallet_id = m.wallet_id ∧ a.is_default = true ∧
          a.payment_method_id ≠ pmid) := fun hx => hcc ⟨hx.1, hx.2.1⟩
      simp [hpid, hcc, hfc]

theorem setdflt_clears_others {s : LedgerState} {pmid : Nat} {s' : LedgerState}
    {pm : PaymentMethod}
    (h : set_default_payment_method s pmid = Except.ok (s', pm)) :
    ∀ p ∈ s'.payment_methods, p.wallet_id = pm.wallet_id →
      p.payment_method_id ≠ pm.payment_method_id → p.is_default = false := by
  rcases set_default_ok_spec h with ⟨m, hg, hpm, hs⟩
  subst hpm
  subst hs
  intro p hp hpw hpid
  rw [show ({ s with payment_methods :=
      (s.payment_methods.map _).map _ } : LedgerState).payment_methods =
    (s.payment_methods.map (fun p =>
        if p.wallet_id = m.wallet_id ∧ p.is_default = true ∧
            p.payment_method_id ≠ pmid then
          { p with is_default := false } else p)).map
      (fun p => if p.payment_method_id = pmid then
        { m with is_default := true } else p) from rfl,
    setdflt_map_simplify] at hp
  rcases List.mem_map.1 hp with ⟨a, ha, rfl⟩
  by_cases hpid2 : a.payment_method_id = pmid
  · exfalso
    apply hpid
    simp [hpid2]
  · by_cases hcc : a.wallet_id = m.wallet_id ∧ a.is_default = true
    · simp [hpid2, hcc.1, hcc.2]
    · cases hdef : a.is_default with
      | false =>
        simp [hpid2, hcc, hdef]
      | true =>
        exfalso
        apply hcc
        refine ⟨?_, hdef⟩
        have hfc : ¬ (a.wallet_id = m.wallet_id ∧ a.is_default = true ∧
            a.payment_method_id ≠ pmid) := fun hx => hcc ⟨hx.1, hx.2.1⟩
        simpa [hpid2, hcc, hfc] using hpw

/-! ### Concrete scenario states (spec §8 example scenarios) -/

/-- Two merchants, two wallets funded with 1000 and 500. -/
def sampleState : LedgerState :=
  applyOps initState
    [LedgerOp.createWallet 10, LedgerOp.createWallet 20,
     LedgerOp.processTx 0 1000 TxType.deposit,
     LedgerOp.processTx 1 500 TxType.deposit]

/-- `sampleState` after a 300 transfer from wallet 0 to wallet 1. -/
def sampleTransferState : LedgerState :=
  applyOp sampleState (LedgerOp.transferFunds 0 1 300)

/-- `sampleState` with wallet 0 suspended. -/
def suspState : LedgerState :=
  applyOp sampleState (LedgerOp.suspendWallet 0)

/-- `suspState` after debiting 100 from the still-active wallet 1. -/
def suspDebitState : LedgerState :=
  applyOp suspState (LedgerOp.processTx 1 (-100) TxType.transfer_out)

/-- One wallet with two payment methods, each added as the default. -/
def pmState : LedgerState :=
  applyOps initState
    [LedgerOp.createWallet 10, LedgerOp.addPaymentMethod 0 true,
     LedgerOp.addPaymentMethod 0 true]

/-- `pmState` after making method 1 the default again. -/
def pmSetState : LedgerState :=
  applyOp pmState (LedgerOp.setDefaultPaymentMethod 1)

/-- One wallet whose only payment method was added as default and then
deactivated. -/
def pmDeactState : LedgerState :=
  applyOps initState
    [LedgerOp.createWallet 10, LedgerOp.addPaymentMethod 0 true,
     LedgerOp.deactivatePaymentMethod 1]

/-! ### The claims -/

/-- C1: after any sequence of ledger operations starting from the empty
database (failed operations leave the state unchanged, so this covers
every sequence of successful `create_wallet` / `process_transaction` /
`transfer_funds` / `suspend_wallet` / `reactivate_wallet` calls), every
wallet's balance equals the sum of the amounts of its `completed`
transactions. -/
theorem ledger_balance_consistency (ops : List LedgerOp) :
    balanceConsistent (applyOps initState ops) :=
  (inv_reachable ops).bal

/-- C2: on an existing active wallet, `process_transaction` fails with
`InsufficientFunds` exactly when `balance + amount < 0`; that failure
carries the current balance, the attempted amount and the would-be
resulting balance, and leaves the state (balance and transaction log)
unchanged; and no reachable wallet ever has a negative balance. -/
theorem process_transaction_nonnegativity :
    (∀ (s : LedgerState) (wid : Nat) (amt : Int) (tt : TxType) (w : MerchantWallet),
      findWallet s wid = some w → w.status = WalletStatus.active →
      ((∃ cur att res, process_transaction s wid amt tt =
          Except.error (LedgerError.insufficientFunds cur att res)) ↔
          w.balance + amt < 0) ∧
      (w.balance + amt < 0 →
        process_transaction s wid amt tt =
          Except.error (LedgerError.insufficientFunds w.balance amt (w.balance + amt)) ∧
        applyOp s (LedgerOp.processTx wid amt tt) = s)) ∧
    (∀ ops : List LedgerOp, ∀ w ∈ (applyOps initState ops).wallets, 0 ≤ w.balance) := by
  constructor
  · intro s wid amt tt w hf hst
    constructor
    · constructor
      · rintro ⟨cur, att, res, herr⟩
        by_contra hge
        rw [process_transaction_ok_of hf hst (not_lt.1 hge)] at herr
        cases herr
      · intro hlt
        exact ⟨w.balance, amt, w.balance + amt,
          process_transaction_insufficient hf hst hlt⟩
    · intro hlt
      exact ⟨process_transaction_insufficient hf hst hlt,
        applyOp_processTx_error (process_transaction_insufficient hf hst hlt)⟩
  · intro ops w hw
    exact (inv_reachable ops).nonneg w hw

theorem process_transaction_nonnegativity_witness :
    process_transaction sampleState 0 (-2000) TxType.withdrawal =
      Except.error (LedgerError.insufficientFunds 1000 (-2000) (-1000)) ∧
    applyOp sampleState (LedgerOp.processTx 0 (-2000) TxType.withdrawal) =
      sampleState :=
  (process_transaction_nonnegativity.1 sampleState 0 (-2000) TxType.withdrawal
    { wallet_id := 0, merchant_id := 10, balance := 1000,
      status := WalletStatus.active }
    (by decide) (by decide)).2 (by decide)

/-- C6: `create_merchant_wallet` is idempotent — a second call for the
same merchant returns exactly the first call's result (same wallet, no
new row, no modification), and a first call for a fresh merchant creates
exactly one wallet with balance 0 and status `active`, while a call for
a merchant that already has a wallet returns that wallet unchanged. -/
theorem create_wallet_idempotent (s : LedgerState) (mid : Nat) :
    create_merchant_wallet (create_merchant_wallet s mid).1 mid =
      create_merchant_wallet s mid ∧
    (findWalletByMerchant s mid = none →
      (create_merchant_wallet s mid).2 =
        { wallet_id := s.next_id, merchant_id := mid, balance := 0,
          status := WalletStatus.active } ∧
      (create_merchant_wallet s mid).1.wallets =
        s.wallets ++ [(create_merchant_wallet s mid).2]) ∧
    (∀ w, findWalletByMerchant s mid = some w →
      create_merchant_wallet s mid = (s, w)) := by
  cases hf : findWalletByMerchant s mid with
  | some w =>
    refine ⟨?_, ?_, ?_⟩
    · rw [create_merchant_wallet_some hf, create_merchant_wallet_some hf]
    · intro hnone
      cases hnone
    · intro w' hw'
      injection hw' with hww
      rw [← hww]
      exact create_merchant_wallet_some hf
  | none =>
    have hf' : s.wallets.find? (fun w => decide (w.merchant_id = mid)) = none := hf
    have hfind2 : findWalletByMerchant (create_merchant_wallet s mid).1 mid =
        some { wallet_id := s.next_id, merchant_id := mid, balance := 0,
               status := WalletStatus.active } := by
      rw [create_merchant_wallet_none hf]
      show (s.wallets ++ [_]).find? _ = _
      rw [List.find?_append, hf']
      simp
    refine ⟨?_, ?_, ?_⟩
    · rw [create_merchant_wallet_some hfind2, create_merchant_wallet_none hf]
    · intro _
      rw [create_merchant_wallet_none hf]
      exact ⟨rfl, rfl⟩
    · intro w' hw'
      cases hw'

theorem create_wallet_idempotent_witness :
    (create_merchant_wallet initState 10).2 =
      { wallet_id := 0, merchant_id := 10, balance := 0,
        status := WalletStatus.active } ∧
    create_merchant_wallet (create_merchant_wallet initState 10).1 10 =
      create_merchant_wallet initState 10 :=
  ⟨((create_wallet_idempotent initState 10).2.1 (by decide)).1,
   (create_wallet_idempotent initState 10).1⟩

/-- C7: `transfer_funds` with a non-positive amount or with source equal
to destination fails with an `InvalidArgument`-kind error and changes no
state. -/
theorem transfer_argument_validation (s : LedgerState) (a b : Nat) (amt : Int)
    (h : amt ≤ 0 ∨ a = b) :
    ∃ e, transfer_funds s a b amt = Except.error e ∧
      kindOf e = ErrorKind.invalidArgument ∧
      applyOp s (LedgerOp.transferFunds a b amt) = s := by
  by_cases hpos : amt ≤ 0
  · exact ⟨LedgerError.nonPositiveTransfer, transfer_funds_nonpos hpos, rfl,
      applyOp_transfer_error (transfer_funds_nonpos hpos)⟩
  · have hab : a = b := h.resolve_left hpos
    exact ⟨LedgerError.sameWallet, transfer_funds_same hpos hab, rfl,
      applyOp_transfer_error (transfer_funds_same hpos hab)⟩

theorem transfer_argument_validation_witness :
    ∃ e, transfer_funds sampleState 0 0 100 = Except.error e ∧
      kindOf e = ErrorKind.invalidArgument ∧
      applyOp sampleState (LedgerOp.transferFunds 0 0 100) = sampleState :=
  transfer_argument_validation sampleState 0 0 100 (Or.inr rfl)

/-- C8: `process_transaction` on a wallet id with no wallet fails with
the `DoesNotExist` error and changes no state; that error is of the
spec's `NotFound` kind, is not raised as a Python `ValueError`, and is
therefore distinguishable by the caller (by exception class) from every
`InvalidState`, `InsufficientFunds` and `InvalidArgument` failure, all
of which are raised as `ValueError`. -/
theorem notfound_typed_failure (s : LedgerState) (wid : Nat) (amt : Int)
    (tt : TxType) (h : findWallet s wid = none) :
    process_transaction s wid amt tt = Except.error LedgerError.doesNotExist ∧
    applyOp s (LedgerOp.processTx wid amt tt) = s ∧
    kindOf LedgerError.doesNotExist = ErrorKind.notFound ∧
    isValueError LedgerError.doesNotExist = false ∧
    (∀ e : LedgerError,
      kindOf e = ErrorKind.invalidState ∨ kindOf e = ErrorKind.insufficientFunds ∨
        kindOf e = ErrorKind.invalidArgument →
      isValueError e = true ∧ e ≠ LedgerError.doesNotExist) := by
  refine ⟨process_transaction_none h,
    applyOp_processTx_error (process_transaction_none h), rfl, rfl, ?_⟩
  intro e he
  cases e <;> simp [kindOf, isValueError] at he ⊢

theorem notfound_typed_failure_witness :
    process_transaction initState 99 50 TxType.deposit =
      Except.error LedgerError.doesNotExist ∧
    applyOp initState (LedgerOp.processTx 99 50 TxType.deposit) = initState :=
  ⟨(notfound_typed_failure initState 99 50 TxType.deposit (by decide)).1,
   (notfound_typed_failure initState 99 50 TxType.deposit (by decide)).2.1⟩

/-- C10: `get_transaction_history` is total — for a wallet id that
refers to no wallet in a reachable state it returns the empty list
rather than failing — whereas `get_wallet_balance` and
`get_merchant_wallet` fail with their `NotFound`-kind errors on a
missing wallet or merchant. -/
theorem history_total_vs_lookup_notfound (ops : List LedgerOp) (wid mid : Nat)
    (hw : findWallet (applyOps initState ops) wid = none)
    (hm : findWalletByMerchant (applyOps initState ops) mid = none) :
    get_transaction_history (applyOps initState ops) wid none none 100 = [] ∧
    get_wallet_balance (applyOps initState ops) wid =
      Except.error (LedgerError.walletNotFound wid) ∧
    get_merchant_wallet (applyOps initState ops) mid =
      Except.error (LedgerError.merchantWalletNotFound mid) ∧
    kindOf (LedgerError.walletNotFound wid) = ErrorKind.notFound ∧
    kindOf (LedgerError.merchantWalletNotFound mid) = ErrorKind.notFound := by
  refine ⟨?_, ?_, ?_, rfl, rfl⟩
  · have hinv := inv_reachable ops
    have hempty : (applyOps initState ops).transactions.filter
        (fun t => decide (t.wallet_id = wid)) = [] := by
      refine List.filter_eq_nil_iff.2 (fun t ht => ?_)
      simp only [decide_eq_true_eq]
      intro heq
      rcases hinv.tEx t ht with ⟨w, hwmem, hwid⟩
      have hsome := List.find?_eq_none.1 hw w hwmem
      simp [hwid, heq] at hsome
    simp [get_transaction_history, hempty]
  · unfold get_wallet_balance
    rw [hw]
  · unfold get_merchant_wallet
    rw [hm]

theorem history_total_vs_lookup_notfound_witness :
    get_transaction_history (applyOps initState []) 5 none none 100 = [] ∧
    get_wallet_balance (applyOps initState []) 5 =
      Except.error (LedgerError.walletNotFound 5) ∧
    get_merchant_wallet (applyOps initState []) 7 =
      Except.error (LedgerError.merchantWalletNotFound 7) :=
  ⟨(history_total_vs_lookup_notfound [] 5 7 (by decide) (by decide)).1,
   (history_total_vs_lookup_notfound [] 5 7 (by decide) (by decide)).2.1,
   (history_total_vs_lookup_notfound [] 5 7 (by decide) (by decide)).2.2.1⟩

/-- C3: a successful `transfer_funds(A, B, amount)` appends exactly one
`completed` `transfer_out` of `-amount` to A's log and one `completed`
`transfer_in` of `+amount` to B's log, decreases A's balance by `amount`,
increases B's balance by `amount`, returns the debit record first, and
commits exactly that state; a failed call leaves the state (both
balances and both logs) exactly as before. -/
theorem transfer_funds_atomic (s : LedgerState) (a b : Nat) (amt : Int) :
    (∀ s' t1 t2, transfer_funds s a b amt = Except.ok (s', t1, t2) →
      t1.wallet_id = a ∧ t1.amount = -amt ∧
      t1.transaction_type = TxType.transfer_out ∧
      t1.transaction_status = TxStatus.completed ∧
      t2.wallet_id = b ∧ t2.amount = amt ∧
      t2.transaction_type = TxType.transfer_in ∧
      t2.transaction_status = TxStatus.completed ∧
      walletTxns s' a = walletTxns s a ++ [t1] ∧
      walletTxns s' b = walletTxns s b ++ [t2] ∧
      balanceOf s' a = (balanceOf s a).map (fun x => x - amt) ∧
      balanceOf s' b = (balanceOf s b).map (fun x => x + amt) ∧
      applyOp s (LedgerOp.transferFunds a b amt) = s') ∧
    (∀ e, transfer_funds s a b amt = Except.error e →
      applyOp s (LedgerOp.transferFunds a b amt) = s) := by
  constructor
  · intro s' t1 t2 h
    rcases transfer_funds_ok_spec h with ⟨hpos, hab, s1, h1, h2⟩
    have hba : b ≠ a := fun hx => hab hx.symm
    rcases process_transaction_ok_spec h1 with ⟨wa, hfa, _, _, ht1, _⟩
    rcases process_transaction_ok_spec h2 with ⟨wb, hfb1, _, _, ht2, _⟩
    have hwta : walletTxns s' a = walletTxns s a ++ [t1] := by
      rw [walletTxns_process a h2, walletTxns_process a h1,
        if_pos rfl, if_neg hba, List.append_nil]
    have hwtb : walletTxns s' b = walletTxns s b ++ [t2] := by
      rw [walletTxns_process b h2, walletTxns_process b h1,
        if_pos rfl, if_neg hab, List.append_nil]
    rcases findWallet_process_self h1 with ⟨wa0, hwa0, hwa1⟩
    rcases findWallet_process_self h2 with ⟨wb0, hwb0, hwb1⟩
    have hfs'a : findWallet s' a = findWallet s1 a :=
      process_transaction_findWallet_ne h2 hab
    have hfs1b : findWallet s1 b = findWallet s b :=
      process_transaction_findWallet_ne h1 hba
    have hba1 : balanceOf s' a = (balanceOf s a).map (fun x => x - amt) := by
      unfold balanceOf
      rw [hfs'a, hwa1, hwa0]
      show some (wa0.balance + -amt) = some (wa0.balance - amt)
      rw [sub_eq_add_neg]
    have hbb1 : balanceOf s' b = (balanceOf s b).map (fun x => x + amt) := by
      unfold balanceOf
      rw [hwb1, ← hfs1b, hwb0]
      rfl
    exact ⟨by rw [ht1], by rw [ht1], by rw [ht1], by rw [ht1],
      by rw [ht2], by rw [ht2], by rw [ht2], by rw [ht2],
      hwta, hwtb, hba1, hbb1, applyOp_transfer_ok h⟩
  · intro e h
    exact applyOp_transfer_error h

theorem transfer_funds_atomic_witness :
    walletTxns sampleTransferState 0 = walletTxns sampleState 0 ++
      [{ transaction_id := 4, wallet_id := 0, amount := -300,
         transaction_type := TxType.transfer_out,
         transaction_status := TxStatus.completed }] ∧
    balanceOf sampleTransferState 0 = some 700 ∧
    balanceOf sampleTransferState 1 = some 800 := by
  have H := (transfer_funds_atomic sampleState 0 1 300).1 sampleTransferState
    { transaction_id := 4, wallet_id := 0, amount := -300,
      transaction_type := TxType.transfer_out,
      transaction_status := TxStatus.completed }
    { transaction_id := 5, wallet_id := 1, amount := 300,
      transaction_type := TxType.transfer_in,
      transaction_status := TxStatus.completed }
    rfl
  refine ⟨H.2.2.2.2.2.2.2.2.1, ?_, ?_⟩
  · rw [H.2.2.2.2.2.2.2.2.2.2.1]
    decide
  · rw [H.2.2.2.2.2.2.2.2.2.2.2.1]
    decide

/-- C4: a `process_transaction` against a wallet whose status is not
`active` fails with the `InvalidState`-kind "wallet is not active" error
and changes nothing — both when called directly and when reached through
`transfer_funds` (with the inactive wallet on the debit side, or on the
credit side once the debit has succeeded); in each case the whole state
is unchanged. -/
theorem inactive_wallet_rejection (s : LedgerState) (wid wid2 : Nat)
    (amt : Int) (tt : TxType) (w : MerchantWallet)
    (hf : findWallet s wid = some w)
    (hst : ¬ w.status = WalletStatus.active) :
    process_transaction s wid amt tt =
      Except.error (LedgerError.notActive w.status) ∧
    kindOf (LedgerError.notActive w.status) = ErrorKind.invalidState ∧
    applyOp s (LedgerOp.processTx wid amt tt) = s ∧
    (0 < amt → wid2 ≠ wid →
      transfer_funds s wid wid2 amt =
        Except.error (LedgerError.notActive w.status) ∧
      applyOp s (LedgerOp.transferFunds wid wid2 amt) = s ∧
      (∀ s1 t1, process_transaction s wid2 (-amt) TxType.transfer_out =
          Except.ok (s1, t1) →
        transfer_funds s wid2 wid amt =
          Except.error (LedgerError.notActive w.status) ∧
        applyOp s (LedgerOp.transferFunds wid2 wid amt) = s)) := by
  have herr : process_transaction s wid amt tt =
      Except.error (LedgerError.notActive w.status) :=
    process_transaction_inactive hf hst
  refine ⟨herr, rfl, applyOp_processTx_error herr, ?_⟩
  intro hpos hne
  have hposn : ¬ amt ≤ 0 := not_le.2 hpos
  have hwne : ¬ wid = wid2 := fun hx => hne hx.symm
  have htr1 : transfer_funds s wid wid2 amt =
      Except.error (LedgerError.notActive w.status) :=
    transfer_funds_debit_error hposn hwne (process_transaction_inactive hf hst)
  refine ⟨htr1, applyOp_transfer_error htr1, ?_⟩
  intro s1 t1 hdeb2
  have hfs1 : findWallet s1 wid = findWallet s wid :=
    process_transaction_findWallet_ne hdeb2 hne.symm
  have hcr : process_transaction s1 wid amt TxType.transfer_in =
      Except.error (LedgerError.notActive w.status) :=
    process_transaction_inactive (by rw [hfs1]; exact hf) hst
  have htr2 : transfer_funds s wid2 wid amt =
      Except.error (LedgerError.notActive w.status) :=
    transfer_funds_credit_error hposn hne hdeb2 hcr
  exact ⟨htr2, applyOp_transfer_error htr2⟩

theorem inactive_wallet_rejection_witness :
    process_transaction suspState 0 100 TxType.deposit =
      Except.error (LedgerError.notActive WalletStatus.suspended) ∧
    transfer_funds suspState 0 1 100 =
      Except.error (LedgerError.notActive WalletStatus.suspended) ∧
    transfer_funds suspState 1 0 100 =
      Except.error (LedgerError.notActive WalletStatus.suspended) := by
  have H := inactive_wallet_rejection suspState 0 1 100 TxType.deposit
    { wallet_id := 0, merchant_id := 10, balance := 1000,
      status := WalletStatus.suspended } (by decide) (by decide)
  have H4 := H.2.2.2 (by decide) (by decide)
  refine ⟨H.1, H4.1, ?_⟩
  exact (H4.2.2 suspDebitState
    { transaction_id := 5, wallet_id := 1, amount := -100,
      transaction_type := TxType.transfer_out,
      transaction_status := TxStatus.completed } rfl).1

/-- C5: in every reachable state each wallet has at most one payment
method with `is_default = true`, and a successful
`set_default_payment_method` sets the target's flag and clears
`is_default` on every other method of the same wallet within the same
atomic operation. -/
theorem single_default_payment_method :
    (∀ (ops : List LedgerOp) (wid : Nat),
      defaultCount (applyOps initState ops) wid ≤ 1) ∧
    (∀ (s : LedgerState) (pmid : Nat) (s' : LedgerState) (pm : PaymentMethod),
      set_default_payment_method s pmid = Except.ok (s', pm) →
      pm.is_default = true ∧
      ∀ p ∈ s'.payment_methods, p.wallet_id = pm.wallet_id →
        p.payment_method_id ≠ pm.payment_method_id → p.is_default = false) := by
  constructor
  · intro ops wid
    exact (inv_reachable ops).dflt wid
  · intro s pmid s' pm h
    refine ⟨?_, setdflt_clears_others h⟩
    rcases set_default_ok_spec h with ⟨m, _, hpm, _⟩
    rw [hpm]

theorem single_default_payment_method_witness :
    defaultCount (applyOps initState
      [LedgerOp.createWallet 10, LedgerOp.addPaymentMethod 0 true,
       LedgerOp.addPaymentMethod 0 true,
       LedgerOp.setDefaultPaymentMethod 1]) 0 ≤ 1 ∧
    ({ payment_method_id := 1, wallet_id := 0, is_default := true,
       status := PMStatus.active } : PaymentMethod).is_default = true := by
  refine ⟨single_default_payment_method.1
    [LedgerOp.createWallet 10, LedgerOp.addPaymentMethod 0 true,
     LedgerOp.addPaymentMethod 0 true,
     LedgerOp.setDefaultPaymentMethod 1] 0, ?_⟩
  exact (single_default_payment_method.2 pmState 1 pmSetState
    { payment_method_id := 1, wallet_id := 0, is_default := true,
      status := PMStatus.active } rfl).1

/-- C9: `set_default_payment_method` does not require the target method
to be active: on an existing method with non-`active` status the call
succeeds, flags the target as default, clears every other default of the
wallet — and `get_default_payment_method` for that wallet then returns
`none`, because that lookup only accepts an `active` default. -/
theorem set_default_ignores_status (s : LedgerState) (pmid : Nat)
    (m : PaymentMethod) (hg : getPaymentMethod s pmid = some m)
    (hst : ¬ m.status = PMStatus.active) :
    ∃ s', set_default_payment_method s pmid =
        Except.ok (s', { m with is_default := true }) ∧
      (∀ p ∈ s'.payment_methods, p.wallet_id = m.wallet_id →
        p.payment_method_id ≠ pmid → p.is_default = false) ∧
      get_default_payment_method s' m.wallet_id = none := by
  cases hres : set_default_payment_method s pmid with
  | error e =>
    exfalso
    unfold set_default_payment_method at hres
    rw [hg] at hres
    cases hres
  | ok r =>
    obtain ⟨s', pm⟩ := r
    rcases set_default_ok_spec hres with ⟨m2, hg2, hpm, hs⟩
    rw [hg] at hg2
    injection hg2 with hm2
    subst hm2
    refine ⟨s', by rw [hpm], ?_, ?_⟩
    · intro p hp hpw hpid
      have hmid : m.payment_method_id = pmid := getPaymentMethod_id hg
      refine setdflt_clears_others hres p hp ?_ ?_
      · rw [hpm]
        exact hpw
      · rw [hpm]
        exact fun hx => hpid (hx.trans hmid)
    · subst hs
      unfold get_default_payment_method
      refine List.find?_eq_none.2 (fun p hp => ?_)
      have hp' : p ∈ (s.payment_methods.map (fun p =>
          if p.wallet_id = m.wallet_id ∧ p.is_default = true ∧
              p.payment_method_id ≠ pmid then
            { p with is_default := false } else p)).map
          (fun p => if p.payment_method_id = pmid then
            { m with is_default := true } else p) := hp
      rw [setdflt_map_simplify] at hp'
      rcases List.mem_map.1 hp' with ⟨a, ha, rfl⟩
      by_cases hpid : a.payment_method_id = pmid
      · simp [hpid, hst]
      · by_cases hcc : a.wallet_id = m.wallet_id ∧ a.is_default = true
        · simp [hpid, hcc.1, hcc.2]
        · simp only [hpid, hcc, if_false, decide_eq_true_eq, ite_false]
          exact fun hx => hcc ⟨hx.1, hx.2.1⟩

theorem set_default_ignores_status_witness :
    ∃ s', set_default_payment_method pmDeactState 1 =
        Except.ok (s',
          { payment_method_id := 1, wallet_id := 0, is_default := true,
            status := PMStatus.inactive }) ∧
      (∀ p ∈ s'.payment_methods, p.wallet_id = 0 →
        p.payment_method_id ≠ 1 → p.is_default = false) ∧
      get_default_payment_method s' 0 = none :=
  set_default_ignores_status pmDeactState 1
    { payment_method_id := 1, wallet_id := 0, is_default := false,
      status := PMStatus.inactive } (by decide) (by decide)
